import Mathlib

/- Verification development for the gold-price monitor service in src/main.py.
   The Python module is shallowly embedded in Lean: the module-level mutable
   state becomes the AppState record, every mutating code path becomes a pure
   state-passing function, asyncio task interleavings are modelled as explicit
   event sequences, wall-clock instants are integers measured in milliseconds,
   and the float arithmetic used for display formatting is modelled by exact
   rationals.  Serialized snapshot bytes are modelled by the structured JSON
   value that json_dumps_bytes would serialize: the encoder is deterministic
   and injective on these values, so byte equality coincides with value
   equality. -/

set_option maxRecDepth 8192

namespace GoldMonitor

/-- MAX_HISTORY (main.py line 51): capacity of the price history deque. -/
def MAX_HISTORY : Nat := 1441

/-- MAX_USD_HISTORY (line 52): capacity of the USD/IDR rate history deque. -/
def MAX_USD_HISTORY : Nat := 11

/-- API_POLL_INTERVAL (line 53), 0.02 s, expressed in milliseconds. -/
def API_POLL_INTERVAL_MS : Nat := 20

/-- BROADCAST_DEBOUNCE (line 55), 0.008 s, expressed in milliseconds. -/
def BROADCAST_DEBOUNCE_MS : Nat := 8

/-- MAX_CONNECTIONS (line 56): subscriber capacity ceiling. -/
def MAX_CONNECTIONS : Nat := 500

/-- BROADCAST_CHUNK_SIZE (line 57): fan-out chunk size. -/
def BROADCAST_CHUNK_SIZE : Nat := 50

/-- STATE_CACHE_TTL (line 58), 0.05 s, expressed in milliseconds. -/
def STATE_CACHE_TTL_MS : Int := 50

/-- Backoff base from line 391 (0.1 s per consecutive error), in ms. -/
def ERROR_BACKOFF_BASE_MS : Nat := 100

/-- Backoff cap from line 391 (2.0 s), in ms. -/
def ERROR_BACKOFF_CAP_MS : Nat := 2000

/-- Splits a list into consecutive chunks of size n; mirrors the stride loop
    over range(0, len(connections), BROADCAST_CHUNK_SIZE) in
    ConnectionManager.broadcast (lines 132-133).  Also reused below for digit
    grouping. -/
def chunksOf {α : Type} (n : Nat) (l : List α) : List (List α) :=
  match l with
  | [] => []
  | x :: xs =>
    if _h : n = 0 then []
    else (x :: xs).take n :: chunksOf n ((x :: xs).drop n)
termination_by l.length
decreasing_by
  simp only [List.length_drop, List.length_cons]
  omega

/-- Append to a deque with maxlen = cap: the new element goes at the tail and
    the oldest elements are dropped until the length is at most cap. -/
def dequeAppend {α : Type} (cap : Nat) (l : List α) (x : α) : List α :=
  (l ++ [x]).drop ((l ++ [x]).length - cap)

/-- Digit grouping used by format_rupiah: a dot every three digits counted
    from the right. -/
def groupDigits (n : Nat) : String :=
  String.intercalate "."
    (((chunksOf 3 (toString n).data.reverse).map (fun c => String.mk c.reverse)).reverse)

/-- format_rupiah (lines 155-157): the Python f-string thousands separator
    with "," replaced by ".".  The lru_cache decorator memoizes a pure
    function and is semantically the identity. -/
def format_rupiah (n : Int) : String :=
  if n < 0 then "-" ++ groupDigits n.natAbs else groupDigits n.toNat

/-- HARI_INDO (line 66): Indonesian weekday names, Monday first, matching the
    Python datetime.weekday numbering. -/
def HARI_INDO : List String :=
  ["Senin", "Selasa", "Rabu", "Kamis", "Jumat", "Sabtu", "Minggu"]

/-- Gregorian leap-year test, as in the proleptic calendar used by datetime. -/
def isLeap (y : Nat) : Bool := y % 4 = 0 && (y % 100 ≠ 0 || y % 400 = 0)

/-- Number of days in a month of a given year. -/
def daysInMonth (y m : Nat) : Nat :=
  if m = 2 then (if isLeap y then 29 else 28)
  else if m = 4 ∨ m = 6 ∨ m = 9 ∨ m = 11 then 30
  else 31

/-- Days since 0000-03-01 of a civil date with year at least 1 (the civil
    day-count algorithm restricted to nonnegative years, in Nat). -/
def daysFromCivil (y m d : Nat) : Nat :=
  let y2 := if m ≤ 2 then y - 1 else y
  let era := y2 / 400
  let yoe := y2 - era * 400
  let mp := (m + 9) % 12
  let doy := (153 * mp + 2) / 5 + d - 1
  let doe := yoe * 365 + yoe / 4 - yoe / 100 + doy
  era * 146097 + doe

/-- Weekday with Monday = 0, the Python datetime.weekday convention.
    Day 719468 of the civil count is 1970-01-01, a Thursday (3), and
    719468 mod 7 = 1, so the offset is 2. -/
def weekdayOf (y m d : Nat) : Nat := (daysFromCivil y m d + 2) % 7

/-- Zero-pad a natural number to two digits, as strftime does. -/
def pad2 (n : Nat) : String :=
  if n < 10 then "0" ++ toString n else toString n

/-- get_day_time (lines 160-166): parse a "%Y-%m-%d %H:%M:%S" timestamp and
    render the Indonesian weekday plus the zero-padded time; on any parse
    failure return the input unchanged (the except branch). -/
def get_day_time (date_str : String) : String :=
  match date_str.splitOn " " with
  | [dpart, tpart] =>
    match dpart.splitOn "-", tpart.splitOn ":" with
    | [ys, ms, ds], [hs, mins, ss] =>
      match ys.toNat?, ms.toNat?, ds.toNat?, hs.toNat?, mins.toNat?, ss.toNat? with
      | some y, some mo, some d, some hh, some mi, some sec =>
        if 1 ≤ y ∧ y ≤ 9999 ∧ 1 ≤ mo ∧ mo ≤ 12 ∧ 1 ≤ d ∧ d ≤ daysInMonth y mo
            ∧ hh < 24 ∧ mi < 60 ∧ sec < 60 then
          (HARI_INDO.getD (weekdayOf y mo d) "") ++ " "
            ++ pad2 hh ++ ":" ++ pad2 mi ++ ":" ++ pad2 sec
        else date_str
      | _, _, _, _, _, _ => date_str
    | _, _ => date_str
  | _ => date_str

/-- format_waktu_only (lines 169-170). -/
def format_waktu_only (date_str status : String) : String :=
  get_day_time date_str ++ status

/-- format_diff_display (lines 173-179). -/
def format_diff_display (diff : Int) (status : String) : String :=
  if status = "🚀" then "🚀+" ++ format_rupiah diff
  else if status = "🔻" then "🔻-" ++ format_rupiah (abs diff)
  else "➖tetap"

/-- format_transaction_display (lines 182-183). -/
def format_transaction_display (buy sell diff_display : String) : String :=
  "Beli: " ++ buy ++ "<br>Jual: " ++ sell ++ "<br>" ++ diff_display

/-- PROFIT_CONFIGS (lines 186-191). -/
def PROFIT_CONFIGS : List (Int × Int) :=
  [(20000000, 19314000), (30000000, 28980000),
   (40000000, 38652000), (50000000, 48325000)]

/-- Truncation toward zero: the semantics of int() applied to a float. -/
def ratTrunc (q : ℚ) : Int := if 0 ≤ q then ⌊q⌋ else -⌊-q⌋

/-- Zero-pad a natural number to at least k digits. -/
def padZeros (k : Nat) (n : Nat) : String :=
  let s := toString n
  String.mk (List.replicate (k - s.length) '0') ++ s

/-- Models the f-string rendering of a float with four decimal places and
    group separators (commas replaced by dots), over the exact rational
    value; the decimal rendering of the IEEE double is modelled by half-up
    rounding to four decimal places. -/
def fmt4 (q : ℚ) : String :=
  let n : Int := round (q * 10000)
  let m : Nat := n.natAbs
  let sign := if n < 0 then "-" else ""
  sign ++ groupDigits (m / 10000) ++ "." ++ padZeros 4 (m % 10000)

/-- The try block of calc_profit (lines 194-207) as a fallible computation.
    The two dict lookups become Option parameters (none models a missing key
    raising KeyError) and a zero buying_rate models the ZeroDivisionError of
    modal / buy_rate; errors are produced in exactly the situations in which
    the Python body raises. -/
def calcProfitBody (br sr : Option Int) (modal pokok : Int) : Except Unit String :=
  match br with
  | none => .error ()
  | some b =>
    match sr with
    | none => .error ()
    | some s =>
      if b = 0 then .error ()
      else
        let gram : ℚ := (modal : ℚ) / (b : ℚ)
        let val : Int := ratTrunc (gram * (s : ℚ) - (pokok : ℚ))
        let gram_str := fmt4 gram
        if val > 0 then .ok ("+" ++ format_rupiah val ++ "🟢➺" ++ gram_str ++ "gr")
        else if val < 0 then .ok ("-" ++ format_rupiah (-val) ++ "🔴➺" ++ gram_str ++ "gr")
        else .ok (format_rupiah 0 ++ "➖➺" ++ gram_str ++ "gr")

/-- calc_profit (lines 194-207): the bare except turns every raise of the
    body into the string "-". -/
def calc_profit (br sr : Option Int) (modal pokok : Int) : String :=
  match calcProfitBody br sr modal pokok with
  | .error _ => "-"
  | .ok s => s

/-- One stored price history entry: the dict appended at lines 372-378. -/
structure HistEntry where
  buying_rate : Int
  selling_rate : Int
  status : String
  diff : Int
  created_at : String
deriving DecidableEq, Repr

/-- One stored USD/IDR rate entry: the dict appended at lines 405-408. -/
structure UsdEntry where
  price : String
  time : String
deriving DecidableEq, Repr

/-- The module-level mutable state of main.py (lines 60-64). -/
structure AppState where
  history : List HistEntry
  usd_idr_history : List UsdEntry
  last_buy : Option Int
  shown_updates : Finset String
  treasury_info : String
deriving DecidableEq

/-- The initial module state (lines 60-64). -/
def initState : AppState :=
  { history := [], usd_idr_history := [], last_buy := none,
    shown_updates := ∅, treasury_info := "Belum ada info treasury." }

/-- The formatted history row built by build_single_history_item
    (lines 210-225): the JSON object sent for one price tick. -/
structure HistView where
  buying_rate : String
  selling_rate : String
  waktu_display : String
  diff_display : String
  transaction_display : String
  created_at : String
  jt20 : String
  jt30 : String
  jt40 : String
  jt50 : String
deriving DecidableEq, Repr

/-- build_single_history_item (lines 210-225).  The stored entry always has
    every field, so the two dict lookups passed to calc_profit are `some`. -/
def build_single_history_item (h : HistEntry) : HistView :=
  let buy_fmt := format_rupiah h.buying_rate
  let sell_fmt := format_rupiah h.selling_rate
  let diff_display := format_diff_display h.diff h.status
  let c0 := PROFIT_CONFIGS.getD 0 (0, 0)
  let c1 := PROFIT_CONFIGS.getD 1 (0, 0)
  let c2 := PROFIT_CONFIGS.getD 2 (0, 0)
  let c3 := PROFIT_CONFIGS.getD 3 (0, 0)
  { buying_rate := buy_fmt
    selling_rate := sell_fmt
    waktu_display := format_waktu_only h.created_at h.status
    diff_display := diff_display
    transaction_display := format_transaction_display buy_fmt sell_fmt diff_display
    created_at := h.created_at
    jt20 := calc_profit (some h.buying_rate) (some h.selling_rate) c0.1 c0.2
    jt30 := calc_profit (some h.buying_rate) (some h.selling_rate) c1.1 c1.2
    jt40 := calc_profit (some h.buying_rate) (some h.selling_rate) c2.1 c2.2
    jt50 := calc_profit (some h.buying_rate) (some h.selling_rate) c3.1 c3.2 }

/-- build_history_data (lines 228-229). -/
def build_history_data (hs : List HistEntry) : List HistView :=
  hs.map build_single_history_item

/-- build_usd_idr_data (lines 232-233). -/
def build_usd_idr_data (hs : List UsdEntry) : List UsdEntry :=
  hs.map (fun h => { price := h.price, time := h.time })

/-- The aggregate snapshot value serialized by build_full_state_bytes
    (lines 236-241); byte strings are modelled by this structured value. -/
structure FullState where
  history : List HistView
  usd_idr_history : List UsdEntry
  treasury_info : String
deriving DecidableEq, Repr

/-- build_full_state_bytes (lines 236-241). -/
def build_full_state_bytes (app : AppState) : FullState :=
  { history := build_history_data app.history
    usd_idr_history := build_usd_idr_data app.usd_idr_history
    treasury_info := app.treasury_info }

/-- The three fields read from result["data"] in api_loop (lines 357-360).
    none models a missing key; the two rate fields are modelled after the
    int(float(.)) decode of line 362, with Python numeric truthiness (a zero
    value is falsy and the tick is skipped). -/
structure FetchData where
  buying_rate : Option Int
  selling_rate : Option Int
  updated_at : Option String
deriving DecidableEq, Repr

/-- The history entry built at lines 363-378: diff and status are derived
    from the previous recorded buy rate. -/
def mkEntry (lastBuy : Option Int) (buy sell : Int) (upd : String) : HistEntry :=
  { buying_rate := buy
    selling_rate := sell
    status :=
      match lastBuy with
      | none => "➖"
      | some lb => if lb < buy then "🚀" else if buy < lb then "🔻" else "➖"
    diff := match lastBuy with | none => 0 | some lb => buy - lb
    created_at := upd }

/-- The price-recording path of api_loop (lines 357-382): field guard, dedup
    check, status/diff derivation, bounded append, last_buy update and
    dedup-set registration with the 5000-entry shrink. -/
def recordPrice (s : AppState) (d : FetchData) : AppState :=
  match d.buying_rate, d.selling_rate, d.updated_at with
  | some buy, some sell, some upd =>
    if buy = 0 ∨ sell = 0 ∨ upd = "" ∨ upd ∈ s.shown_updates then s
    else
      let shown1 := insert upd s.shown_updates
      { s with
        history := dequeAppend MAX_HISTORY s.history (mkEntry s.last_buy buy sell upd)
        last_buy := some buy
        shown_updates := if shown1.card > 5000 then {upd} else shown1 }
  | _, _, _ => s

/-- The rate-recording path of usd_idr_loop (lines 397-409): the fetched
    price is None on failure, and an append happens only when the rate list
    is empty or the price differs from the most recent entry.  The wall-clock
    string computed at line 404 is a parameter. -/
def recordRate (s : AppState) (price : Option String) (timeStr : String) : AppState :=
  match price with
  | none => s
  | some p =>
    if p = "" then s
    else if s.usd_idr_history = [] ∨ (s.usd_idr_history.getLast?).map UsdEntry.price ≠ some p then
      { s with usd_idr_history := dequeAppend MAX_USD_HISTORY s.usd_idr_history ⟨p, timeStr⟩ }
    else s

/-- Outcome of one fetch in api_loop: a truthy parsed result, a falsy result
    (fetch_treasury_price swallows every transport error and returns None),
    or an exception escaping the loop body (for example the int(float(.))
    decode at line 362 on a malformed field). -/
inductive FetchOutcome where
  | ok (d : FetchData)
  | noResult
  | exc
deriving DecidableEq, Repr

/-- Result of one api_loop iteration: the new state, the new consecutive
    error counter, and the duration of the sleep before the next iteration,
    in milliseconds. -/
structure ApiStepOut where
  state : AppState
  errors : Nat
  sleepMs : Nat
deriving DecidableEq

/-- One iteration of api_loop (lines 352-391).  A truthy result resets the
    error counter and is recorded; a falsy result (fetch_treasury_price
    swallows every transport error and returns None) increments the counter;
    in both cases the loop sleeps API_POLL_INTERVAL.  An exception can reach
    the except-handler at line 389 only from code that runs after a truthy
    result (for example the int(float(.)) decode at line 362): the fetch
    itself never raises and the falsy branch cannot raise, so the reset
    consecutive_errors = 0 at line 356 always precedes the raise; the
    handler then increments the counter from zero to one and sleeps
    min(0.1 * 1, 2.0) s = 0.1 s, independent of the incoming counter. -/
def apiStep (s : AppState) (errors : Nat) (o : FetchOutcome) : ApiStepOut :=
  match o with
  | .ok d => { state := recordPrice s d, errors := 0, sleepMs := API_POLL_INTERVAL_MS }
  | .noResult => { state := s, errors := errors + 1, sleepMs := API_POLL_INTERVAL_MS }
  | .exc =>
      { state := s, errors := 0 + 1,
        sleepMs := min (ERROR_BACKOFF_BASE_MS * (0 + 1)) ERROR_BACKOFF_CAP_MS }

/-- Combined state of the cooperative tasks relevant to the snapshot cache
    and the debouncer: the module state, the StateCache fields (lines 72-79)
    and the BroadcastDebouncer pending flag (lines 324-330), plus the list of
    broadcasts performed so far. -/
structure SysState where
  app : AppState
  cache : Option FullState
  cacheTime : Int
  version : Nat
  pending : Bool
  broadcasts : List FullState
deriving DecidableEq

/-- The initial combined state: a fresh StateCache and debouncer over the
    initial module state. -/
def initSys : SysState :=
  { app := initState, cache := none, cacheTime := 0, version := 0,
    pending := false, broadcasts := [] }

/-- StateCache.invalidate (lines 81-83). -/
def invalidate (s : SysState) : SysState :=
  { s with version := s.version + 1, cache := none }

/-- StateCache.get_state_bytes (lines 85-94) run without interleaving: the
    pre-lock freshness check and the identical re-check under the lock
    collapse into one check when no other task runs in between.  Returns the
    bytes, the new state, and whether a rebuild was performed. -/
def getStateBytes (s : SysState) (now : Int) : FullState × SysState × Bool :=
  match s.cache with
  | some b =>
    if now - s.cacheTime < STATE_CACHE_TTL_MS then (b, s, false)
    else
      (build_full_state_bytes s.app,
       { s with cache := some (build_full_state_bytes s.app), cacheTime := now }, true)
  | none =>
      (build_full_state_bytes s.app,
       { s with cache := some (build_full_state_bytes s.app), cacheTime := now }, true)

/-- One notify event during a burst: the poller (or the annotation handler)
    first mutates the module state, then create_task runs the head of
    BroadcastDebouncer.schedule_broadcast (lines 332-337): if a cycle is
    already pending the call is a no-op, otherwise it marks the cycle pending
    and invalidates the cache. -/
def notifyStep (s : SysState) (u : AppState → AppState) : SysState :=
  let s1 := { s with app := u s.app }
  if s1.pending then s1
  else { s1 with pending := true, cache := none, version := s1.version + 1 }

/-- The end of the debounce window (lines 338-343): the pending flag is
    cleared, the snapshot is fetched through the cache, and the result is
    broadcast. -/
def windowEnd (s : SysState) (now : Int) : SysState :=
  let s1 := { s with pending := false }
  let r := getStateBytes s1 now
  { r.2.1 with broadcasts := r.2.1.broadcasts ++ [r.1] }

/-- StateCache fields seen by one critical section of the double-checked
    rebuild (lines 89-94). -/
structure LockState where
  cache : Option FullState
  cacheTime : Int
  rebuilds : Nat
deriving DecidableEq

/-- The critical section of get_state_bytes for one caller whose pre-lock
    check missed: the re-check under the lock reuses the now captured at the
    entry of the call (line 86), so t is the entry time of that caller. -/
def lockCheckStep (app : AppState) (st : LockState) (t : Int) : LockState :=
  match st.cache with
  | some _ =>
    if t - st.cacheTime < STATE_CACHE_TTL_MS then st
    else { cache := some (build_full_state_bytes app), cacheTime := t,
           rebuilds := st.rebuilds + 1 }
  | none => { cache := some (build_full_state_bytes app), cacheTime := t,
              rebuilds := st.rebuilds + 1 }

/-- Number of rebuilds performed when, after an invalidate, the callers with
    the given entry times all miss the pre-lock check and then enter the
    critical section in list order. -/
def concurrentRebuilds (app : AppState) (ts : List Int) : Nat :=
  (ts.foldl (lockCheckStep app) { cache := none, cacheTime := 0, rebuilds := 0 }).rebuilds

/-- ConnectionManager.connect (lines 114-118); subscribers are modelled as
    connection identifiers. -/
def connect (s : Finset Nat) (ws : Nat) : Bool × Finset Nat :=
  if s.card ≥ MAX_CONNECTIONS then (false, s) else (true, insert ws s)

/-- ConnectionManager.disconnect (lines 120-121). -/
def disconnect (s : Finset Nat) (ws : Nat) : Finset Nat := s.erase ws

/-- ConnectionManager.broadcast (lines 127-142): the registry is listed,
    split into chunks of BROADCAST_CHUNK_SIZE, each send either succeeds or
    fails (ok ws = false models a send that raised or exceeded the 5 s
    wait_for timeout in _send_safe, lines 144-149); the failed subscribers
    collected across all chunks are disconnected after the last chunk. -/
def broadcastFailed (conns : List Nat) (ok : Nat → Bool) : List Nat :=
  (chunksOf BROADCAST_CHUNK_SIZE conns).foldl
    (fun acc c => acc ++ c.filter (fun ws => !(ok ws))) []

/-- The registry after one broadcast cycle: every subscriber collected in the
    failed list has been disconnected (lines 141-142). -/
def broadcastStep (s : Finset Nat) (conns : List Nat) (ok : Nat → Bool) : Finset Nat :=
  (broadcastFailed conns ok).foldl (fun st ws => disconnect st ws) s

theorem dequeAppend_length {α : Type} (cap : Nat) (l : List α) (x : α) :
    (dequeAppend cap l x).length = min (l.length + 1) cap := by
  simp only [dequeAppend, List.length_drop, List.length_append, List.length_cons,
    List.length_nil]
  omega

theorem dequeAppend_lt {α : Type} (cap : Nat) (l : List α) (x : α)
    (h : l.length < cap) : dequeAppend cap l x = l ++ [x] := by
  unfold dequeAppend
  have h0 : (l ++ [x]).length - cap = 0 := by
    simp only [List.length_append, List.length_cons, List.length_nil]
    omega
  rw [h0, List.drop_zero]

theorem dequeAppend_full {α : Type} (cap : Nat) (l : List α) (x : α)
    (hc : 0 < cap) (h : l.length = cap) : dequeAppend cap l x = l.tail ++ [x] := by
  unfold dequeAppend
  have h1 : (l ++ [x]).length - cap = 1 := by
    simp only [List.length_append, List.length_cons, List.length_nil]
    omega
  rw [h1, List.drop_append_of_le_length (by omega), List.drop_one]

theorem dequeAppend_getLast {α : Type} (cap : Nat) (l : List α) (x : α)
    (hc : 0 < cap) : (dequeAppend cap l x).getLast? = some x := by
  unfold dequeAppend
  have hk : (l ++ [x]).length - cap ≤ l.length := by
    simp only [List.length_append, List.length_cons, List.length_nil]
    omega
  rw [List.drop_append_of_le_length hk, List.getLast?_concat]

theorem recordPrice_accept (s : AppState) (d : FetchData) (buy sell : Int) (upd : String)
    (hb : d.buying_rate = some buy) (hse : d.selling_rate = some sell)
    (hu : d.updated_at = some upd) (hb0 : buy ≠ 0) (hs0 : sell ≠ 0) (hu0 : upd ≠ "")
    (hnew : upd ∉ s.shown_updates) :
    recordPrice s d =
      { s with
        history := dequeAppend MAX_HISTORY s.history (mkEntry s.last_buy buy sell upd)
        last_buy := some buy
        shown_updates :=
          if (insert upd s.shown_updates).card > 5000 then {upd}
          else insert upd s.shown_updates } := by
  have hcond : ¬(buy = 0 ∨ sell = 0 ∨ upd = "" ∨ upd ∈ s.shown_updates) := by
    push_neg
    exact ⟨hb0, hs0, hu0, hnew⟩
  simp only [recordPrice, hb, hse, hu, if_neg hcond]

theorem recordPrice_seen (s : AppState) (d : FetchData) (upd : String)
    (hu : d.updated_at = some upd) (hmem : upd ∈ s.shown_updates) :
    recordPrice s d = s := by
  obtain ⟨br, sr, ua⟩ := d
  simp only [FetchData.updated_at] at hu
  subst hu
  rcases br with _ | buy <;> rcases sr with _ | sell <;>
    simp [recordPrice, hmem]

theorem recordPrice_history_le (s : AppState) (d : FetchData)
    (h : s.history.length ≤ MAX_HISTORY) :
    (recordPrice s d).history.length ≤ MAX_HISTORY := by
  obtain ⟨br, sr, ua⟩ := d
  rcases br with _ | buy <;> rcases sr with _ | sell <;> rcases ua with _ | upd <;>
    simp only [recordPrice] <;> try exact h
  split
  · exact h
  · simp only [dequeAppend_length]
    omega

theorem recordRate_usd_le (s : AppState) (p : Option String) (t : String)
    (h : s.usd_idr_history.length ≤ MAX_USD_HISTORY) :
    (recordRate s p t).usd_idr_history.length ≤ MAX_USD_HISTORY := by
  rcases p with _ | p
  · exact h
  · simp only [recordRate]
    split
    · exact h
    · split
      · simp only [dequeAppend_length]
        omega
      · exact h

theorem foldl_recordPrice_history_le (s : AppState) (ds : List FetchData)
    (h : s.history.length ≤ MAX_HISTORY) :
    (ds.foldl recordPrice s).history.length ≤ MAX_HISTORY := by
  induction ds generalizing s with
  | nil => exact h
  | cons d ds ih => exact ih _ (recordPrice_history_le s d h)

theorem foldl_recordRate_usd_le (s : AppState) (rs : List (Option String × String))
    (h : s.usd_idr_history.length ≤ MAX_USD_HISTORY) :
    ((rs.foldl (fun st pr => recordRate st pr.1 pr.2) s).usd_idr_history.length
      ≤ MAX_USD_HISTORY) := by
  induction rs generalizing s with
  | nil => exact h
  | cons r rs ih => exact ih _ (recordRate_usd_le s r.1 r.2 h)

/-- C6: for every sequence of recorded price ticks the stored history length
    never exceeds 1441; an accepted tick arriving at full capacity evicts
    exactly the oldest entry and appends the new one at the tail, keeping the
    order of the remaining entries; the rate history is analogously bounded
    by 11. -/
theorem C6_history_capacity :
    (∀ (s : AppState) (ds : List FetchData), s.history.length ≤ MAX_HISTORY →
        (ds.foldl recordPrice s).history.length ≤ MAX_HISTORY) ∧
    (∀ (s : AppState) (d : FetchData) (buy sell : Int) (upd : String),
        d.buying_rate = some buy → d.selling_rate = some sell →
        d.updated_at = some upd → buy ≠ 0 → sell ≠ 0 → upd ≠ "" →
        upd ∉ s.shown_updates → s.history.length = MAX_HISTORY →
        (recordPrice s d).history = s.history.tail ++ [mkEntry s.last_buy buy sell upd]) ∧
    (∀ (s : AppState) (rs : List (Option String × String)),
        s.usd_idr_history.length ≤ MAX_USD_HISTORY →
        ((rs.foldl (fun st pr => recordRate st pr.1 pr.2) s).usd_idr_history.length
          ≤ MAX_USD_HISTORY)) := by
  refine ⟨foldl_recordPrice_history_le, ?_, foldl_recordRate_usd_le⟩
  intro s d buy sell upd hb hse hu hb0 hs0 hu0 hnew hfull
  have h1 : (recordPrice s d).history
      = dequeAppend MAX_HISTORY s.history (mkEntry s.last_buy buy sell upd) := by
    rw [recordPrice_accept s d buy sell upd hb hse hu hb0 hs0 hu0 hnew]
  rw [h1]
  exact dequeAppend_full MAX_HISTORY s.history (mkEntry s.last_buy buy sell upd)
    (by norm_num [MAX_HISTORY]) hfull

/-- C6 witness: concrete instantiation of the capacity bound. -/
theorem C6_history_capacity_witness :
    (([⟨some 5, some 4, some "U1"⟩, ⟨some 6, some 5, some "U2"⟩] : List FetchData).foldl
      recordPrice initState).history.length ≤ MAX_HISTORY :=
  C6_history_capacity.1 initState _ (by decide)

/-- C2 counterexample: at the first consecutive fetch failure (the fetch
    collaborator returns no result) the loop increments the counter but
    sleeps the fixed 20 ms poll interval, not min(1 x 100 ms, 2000 ms)
    = 100 ms as the claim asserts. -/
theorem C2_backoff_counterexample :
    (apiStep initState 0 .noResult).errors = 1 ∧
    (apiStep initState 0 .noResult).sleepMs = 20 ∧
    min (ERROR_BACKOFF_BASE_MS * 1) ERROR_BACKOFF_CAP_MS = 100 ∧
    (apiStep initState 0 .noResult).sleepMs ≠
      min (ERROR_BACKOFF_BASE_MS * 1) ERROR_BACKOFF_CAP_MS := by
  refine ⟨rfl, rfl, rfl, ?_⟩
  decide

/-- C2 (amended): a fetch that returns no result increments the consecutive
    error counter, leaves the state unchanged and sleeps the fixed 20 ms
    poll interval regardless of the counter value; an exception can escape
    the loop body only after a truthy result has reset the counter, so the
    except-handler always raises the counter to exactly one and sleeps
    min(1 x 100 ms, 2000 ms) = 100 ms, a constant, never a graduated
    backoff; the counter resets to zero on the next truthy fetch result. -/
theorem C2_backoff_amended (s : AppState) (errors : Nat) (d : FetchData) :
    ((apiStep s errors .noResult).errors = errors + 1 ∧
     (apiStep s errors .noResult).sleepMs = API_POLL_INTERVAL_MS ∧
     (apiStep s errors .noResult).state = s) ∧
    ((apiStep s errors .exc).errors = 1 ∧
     (apiStep s errors .exc).sleepMs
       = min (ERROR_BACKOFF_BASE_MS * 1) ERROR_BACKOFF_CAP_MS ∧
     (apiStep s errors .exc).sleepMs = 100 ∧
     (apiStep s errors .exc).state = s) ∧
    (apiStep s errors (.ok d)).errors = 0 := by
  refine ⟨⟨rfl, rfl, rfl⟩, ⟨rfl, rfl, ?_, rfl⟩, rfl⟩
  show min (ERROR_BACKOFF_BASE_MS * (0 + 1)) ERROR_BACKOFF_CAP_MS = 100
  decide

/-- C7: after every price-recording step the dedup set of seen update ids has
    at most 5000 entries, and when an insertion overflows the cap the set is
    reset to exactly the singleton of the just-inserted id. -/
theorem C7_dedup_cap (s : AppState) (d : FetchData)
    (hcard : s.shown_updates.card ≤ 5000) :
    (recordPrice s d).shown_updates.card ≤ 5000 ∧
    (∀ (buy sell : Int) (upd : String),
      d.buying_rate = some buy → d.selling_rate = some sell →
      d.updated_at = some upd → buy ≠ 0 → sell ≠ 0 → upd ≠ "" →
      upd ∉ s.shown_updates → (insert upd s.shown_updates).card > 5000 →
      (recordPrice s d).shown_updates = {upd}) := by
  constructor
  · obtain ⟨br, sr, ua⟩ := d
    rcases br with _ | buy <;> rcases sr with _ | sell <;> rcases ua with _ | upd <;>
      simp only [recordPrice] <;> try exact hcard
    split
    · exact hcard
    · simp only
      split
      · simp
      · rename_i hnot
        omega
  · intro buy sell upd hb hse hu hb0 hs0 hu0 hnew hover
    rw [recordPrice_accept s d buy sell upd hb hse hu hb0 hs0 hu0 hnew]
    simp [hover]

/-- C7 witness: concrete dedup-set bound after one recording step. -/
theorem C7_dedup_cap_witness :
    (recordPrice initState ⟨some 5, some 4, some "U1"⟩).shown_updates.card ≤ 5000 :=
  (C7_dedup_cap initState ⟨some 5, some 4, some "U1"⟩ (by decide)).1

/-- C9: when 500 subscribers are registered, admitting another connection
    returns failure and leaves the registry unchanged; below 500, connect
    admits the subscriber and returns success. -/
theorem C9_connect_capacity (s1 s2 : Finset Nat) (w1 w2 : Nat)
    (h1 : s1.card = 500) (h2 : s2.card < 500) :
    connect s1 w1 = (false, s1) ∧
    (connect s1 w1).2.card = s1.card ∧
    (connect s2 w2).1 = true ∧ w2 ∈ (connect s2 w2).2 := by
  have hc1 : s1.card ≥ MAX_CONNECTIONS := by
    simp only [MAX_CONNECTIONS, h1, ge_iff_le, le_refl]
  have hc2 : ¬(s2.card ≥ MAX_CONNECTIONS) := by
    simp only [MAX_CONNECTIONS, ge_iff_le, not_le]
    exact h2
  refine ⟨?_, ?_, ?_, ?_⟩
  · simp [connect, hc1]
  · simp [connect, hc1]
  · simp [connect, hc2]
  · simp [connect, hc2]

/-- C9 witness: a 501st connection is refused on a concrete full registry and
    an empty registry admits a subscriber. -/
theorem C9_connect_capacity_witness :
    connect (Finset.range 500) 999 = (false, Finset.range 500) ∧
    (connect (∅ : Finset Nat) 7).1 = true :=
  have h := C9_connect_capacity (Finset.range 500) ∅ 999 7
    (by simp) (by simp)
  ⟨h.1, h.2.2.1⟩

/-- C10: the body of calc_profit raises exactly when a profit field is
    missing or the buying rate is zero, and in every such case calc_profit
    catches the error and returns the string "-", so building a snapshot row
    never propagates an exception. -/
theorem C10_calc_profit_safe (br sr : Option Int) (modal pokok : Int) :
    ((calcProfitBody br sr modal pokok = Except.error ()) ↔
      (br = none ∨ sr = none ∨ br = some 0)) ∧
    ((br = none ∨ sr = none ∨ br = some 0) →
      calc_profit br sr modal pokok = "-") := by
  have hbody : (calcProfitBody br sr modal pokok = Except.error ()) ↔
      (br = none ∨ sr = none ∨ br = some 0) := by
    rcases br with _ | b
    · simp [calcProfitBody]
    · rcases sr with _ | s2
      · simp [calcProfitBody]
      · by_cases hb : b = 0
        · subst hb
          simp [calcProfitBody]
        · simp only [calcProfitBody, if_neg hb]
          constructor
          · intro h
            split at h <;> first | exact absurd h (by simp) | skip
            split at h <;> exact absurd h (by simp)
          · intro h
            rcases h with h | h | h
            · exact absurd h (by simp)
            · exact absurd h (by simp)
            · simp only [Option.some.injEq] at h
              exact absurd h hb
  refine ⟨hbody, fun h => ?_⟩
  unfold calc_profit
  rw [hbody.mpr h]

/-- C10 witness: a zero buying rate and a missing field both produce "-". -/
theorem C10_calc_profit_safe_witness :
    calc_profit (some 0) (some 1761000) 20000000 19314000 = "-" :=
  (C10_calc_profit_safe (some 0) (some 1761000) 20000000 19314000).2
    (Or.inr (Or.inr rfl))

/-- C3: for every recorded price tick the stored status is the up marker
    exactly when the new buy rate exceeds the previously recorded one, the
    down marker exactly when it is lower, and the flat marker when it is
    equal or when there is no previous tick; the stored diff is the new buy
    rate minus the previous one, zero when there is no previous tick. -/
theorem C3_status_diff (s : AppState) (d : FetchData) (buy sell : Int) (upd : String)
    (hb : d.buying_rate = some buy) (hse : d.selling_rate = some sell)
    (hu : d.updated_at = some upd) (hb0 : buy ≠ 0) (hs0 : sell ≠ 0) (hu0 : upd ≠ "")
    (hnew : upd ∉ s.shown_updates) :
    (recordPrice s d).history.getLast? = some (mkEntry s.last_buy buy sell upd) ∧
    ((mkEntry s.last_buy buy sell upd).status = "🚀" ↔
      ∃ lb, s.last_buy = some lb ∧ lb < buy) ∧
    ((mkEntry s.last_buy buy sell upd).status = "🔻" ↔
      ∃ lb, s.last_buy = some lb ∧ buy < lb) ∧
    ((mkEntry s.last_buy buy sell upd).status = "➖" ↔
      (s.last_buy = none ∨ s.last_buy = some buy)) ∧
    (mkEntry s.last_buy buy sell upd).diff =
      (match s.last_buy with | none => 0 | some lb => buy - lb) := by
  have h1 : (recordPrice s d).history
      = dequeAppend MAX_HISTORY s.history (mkEntry s.last_buy buy sell upd) := by
    rw [recordPrice_accept s d buy sell upd hb hse hu hb0 hs0 hu0 hnew]
  refine ⟨?_, ?_, ?_, ?_, ?_⟩
  · rw [h1]
    exact dequeAppend_getLast MAX_HISTORY s.history (mkEntry s.last_buy buy sell upd)
      (by norm_num [MAX_HISTORY])
  · rcases hlb : s.last_buy with _ | lb
    · simp [mkEntry]
    · by_cases hlt : lb < buy
      · simp [mkEntry, hlt]
      · by_cases hgt : buy < lb
        · simp [mkEntry, hlt, hgt]
        · simp [mkEntry, hlt, hgt]
  · rcases hlb : s.last_buy with _ | lb
    · simp [mkEntry]
    · by_cases hlt : lb < buy
      · simp [mkEntry, hlt]
        omega
      · by_cases hgt : buy < lb
        · simp [mkEntry, hlt, hgt]
        · simp [mkEntry, hlt, hgt]
  · rcases hlb : s.last_buy with _ | lb
    · simp [mkEntry]
    · by_cases hlt : lb < buy
      · simp [mkEntry, hlt]
        omega
      · by_cases hgt : buy < lb
        · simp [mkEntry, hlt, hgt]
          omega
        · simp [mkEntry, hlt, hgt]
          omega
  · rcases hlb : s.last_buy with _ | lb <;> simp [mkEntry]

/-- C3 witness: a concrete second tick with a higher buy rate gets the up
    marker and the positive diff. -/
theorem C3_status_diff_witness :
    (mkEntry (some 1000000) 1050000 1000000 "U2").status = "🚀" ∧
    (mkEntry (some 1000000) 1050000 1000000 "U2").diff = 50000 :=
  have h := C3_status_diff
    { initState with last_buy := some 1000000 }
    ⟨some 1050000, some 1000000, some "U2"⟩ 1050000 1000000 "U2"
    rfl rfl rfl (by decide) (by decide) (by decide) (by decide)
  ⟨h.2.1.mpr ⟨1000000, rfl, by decide⟩, by decide⟩

theorem recordPrice_mem_shown (s : AppState) (d : FetchData) (buy sell : Int)
    (upd : String)
    (hb : d.buying_rate = some buy) (hse : d.selling_rate = some sell)
    (hu : d.updated_at = some upd) (hb0 : buy ≠ 0) (hs0 : sell ≠ 0) (hu0 : upd ≠ "")
    (hnew : upd ∉ s.shown_updates) :
    upd ∈ (recordPrice s d).shown_updates := by
  have h1 : (recordPrice s d).shown_updates
      = (if (insert upd s.shown_updates).card > 5000 then {upd}
         else insert upd s.shown_updates) := by
    rw [recordPrice_accept s d buy sell upd hb hse hu hb0 hs0 hu0 hnew]
  rw [h1]
  split
  · exact Finset.mem_singleton_self upd
  · exact Finset.mem_insert_self upd s.shown_updates

/-- C4: two fetch results carrying the same update id produce exactly one
    stored entry for that id: the first accepted application appends one
    entry, and applying a second result with the same id leaves the whole
    state, in particular the history, unchanged. -/
theorem C4_dedup_pair (s : AppState) (d d2 : FetchData) (buy sell : Int) (upd : String)
    (hb : d.buying_rate = some buy) (hse : d.selling_rate = some sell)
    (hu : d.updated_at = some upd) (hb0 : buy ≠ 0) (hs0 : sell ≠ 0) (hu0 : upd ≠ "")
    (hnew : upd ∉ s.shown_updates) (hu2 : d2.updated_at = some upd)
    (hold : ∀ e ∈ s.history, e.created_at ≠ upd) :
    recordPrice (recordPrice s d) d2 = recordPrice s d ∧
    ((recordPrice s d).history.countP (fun e => e.created_at == upd)) = 1 := by
  constructor
  · exact recordPrice_seen (recordPrice s d) d2 upd hu2
      (recordPrice_mem_shown s d buy sell upd hb hse hu hb0 hs0 hu0 hnew)
  · have h1 : (recordPrice s d).history
        = dequeAppend MAX_HISTORY s.history (mkEntry s.last_buy buy sell upd) := by
      rw [recordPrice_accept s d buy sell upd hb hse hu hb0 hs0 hu0 hnew]
    rw [h1]
    unfold dequeAppend
    have hk : (s.history ++ [mkEntry s.last_buy buy sell upd]).length - MAX_HISTORY
        ≤ s.history.length := by
      simp only [List.length_append, List.length_cons, List.length_nil]
      norm_num [MAX_HISTORY]
    rw [List.drop_append_of_le_length hk, List.countP_append]
    have hz : (s.history.drop
          ((s.history ++ [mkEntry s.last_buy buy sell upd]).length - MAX_HISTORY)).countP
        (fun e => e.created_at == upd) = 0 := by
      rw [List.countP_eq_zero]
      intro e he
      simp only [beq_iff_eq]
      exact hold e (List.mem_of_mem_drop he)
    rw [hz]
    simp [mkEntry]

/-- C4 witness: applying two concrete results with the shared id "U1" keeps
    the history at a single entry and the second application is a no-op. -/
theorem C4_dedup_pair_witness :
    recordPrice (recordPrice initState ⟨some 5, some 4, some "U1"⟩)
        ⟨some 9, some 8, some "U1"⟩
      = recordPrice initState ⟨some 5, some 4, some "U1"⟩ ∧
    ((recordPrice initState ⟨some 5, some 4, some "U1"⟩).history.countP
        (fun e => e.created_at == "U1")) = 1 :=
  C4_dedup_pair initState ⟨some 5, some 4, some "U1"⟩ ⟨some 9, some 8, some "U1"⟩
    5 4 "U1" rfl rfl rfl (by decide) (by decide) (by decide) (by decide) rfl
    (by intro e he; cases he)

theorem chunksOf_flatten {α : Type} (n : Nat) (hn : n ≠ 0) :
    (l : List α) → (chunksOf n l).flatten = l
  | [] => by simp [chunksOf]
  | x :: xs => by
    rw [chunksOf, dif_neg hn, List.flatten_cons,
      chunksOf_flatten n hn ((x :: xs).drop n)]
    exact List.take_append_drop n (x :: xs)
termination_by l => l.length
decreasing_by
  simp only [List.length_drop, List.length_cons]
  omega

theorem chunksOf_length_le {α : Type} (n : Nat) (hn : n ≠ 0) :
    (l : List α) → ∀ c ∈ chunksOf n l, c.length ≤ n
  | [] => by
    intro c hc
    simp [chunksOf] at hc
  | x :: xs => by
    intro c hc
    rw [chunksOf, dif_neg hn] at hc
    rcases List.mem_cons.mp hc with rfl | h
    · exact List.length_take_le n (x :: xs)
    · exact chunksOf_length_le n hn ((x :: xs).drop n) c h
termination_by l => l.length
decreasing_by
  simp only [List.length_drop, List.length_cons]
  omega

theorem mem_foldl_filter_append (p : Nat → Bool) (ls : List (List Nat))
    (acc : List Nat) (x : Nat) :
    (x ∈ ls.foldl (fun a c => a ++ c.filter p) acc ↔
      x ∈ acc ∨ ∃ c ∈ ls, x ∈ c.filter p) := by
  induction ls generalizing acc with
  | nil => simp
  | cons c ls ih =>
    rw [List.foldl_cons, ih]
    constructor
    · rintro (h | ⟨c2, hc2, hx⟩)
      · rcases List.mem_append.mp h with h | h
        · exact Or.inl h
        · exact Or.inr ⟨c, List.mem_cons_self c ls, h⟩
      · exact Or.inr ⟨c2, List.mem_cons_of_mem c hc2, hx⟩
    · rintro (h | ⟨c2, hc2, hx⟩)
      · exact Or.inl (List.mem_append.mpr (Or.inl h))
      · rcases List.mem_cons.mp hc2 with rfl | hc2
        · exact Or.inl (List.mem_append.mpr (Or.inr hx))
        · exact Or.inr ⟨c2, hc2, hx⟩

theorem not_mem_foldl_disconnect_of_not_mem (l : List Nat) (s : Finset Nat) (x : Nat)
    (h : x ∉ s) : x ∉ l.foldl (fun st ws => disconnect st ws) s := by
  induction l generalizing s with
  | nil => exact h
  | cons y l ih =>
    rw [List.foldl_cons]
    apply ih
    simp only [disconnect, Finset.mem_erase]
    rintro ⟨-, hmem⟩
    exact h hmem

theorem not_mem_foldl_disconnect_of_mem (l : List Nat) (s : Finset Nat) (x : Nat)
    (h : x ∈ l) : x ∉ l.foldl (fun st ws => disconnect st ws) s := by
  induction l generalizing s with
  | nil => cases h
  | cons y l ih =>
    rw [List.foldl_cons]
    rcases List.mem_cons.mp h with rfl | hx
    · by_cases hxl : x ∈ l
      · exact ih _ hxl
      · apply not_mem_foldl_disconnect_of_not_mem
        exact Finset.not_mem_erase x s
    · exact ih _ hx

/-- C8: one broadcast cycle partitions the listed subscribers into chunks of
    at most 50 that cover the listing exactly, and after the final chunk is
    processed every subscriber whose send failed or timed out is absent from
    the registry. -/
theorem C8_broadcast_eviction (s : Finset Nat) (conns : List Nat) (ok : Nat → Bool) :
    (∀ c ∈ chunksOf BROADCAST_CHUNK_SIZE conns, c.length ≤ BROADCAST_CHUNK_SIZE) ∧
    (chunksOf BROADCAST_CHUNK_SIZE conns).flatten = conns ∧
    (∀ ws ∈ conns, ok ws = false → ws ∉ broadcastStep s conns ok) := by
  refine ⟨chunksOf_length_le _ (by decide) conns, chunksOf_flatten _ (by decide) conns, ?_⟩
  intro ws hws hfail
  unfold broadcastStep
  apply not_mem_foldl_disconnect_of_mem
  unfold broadcastFailed
  rw [mem_foldl_filter_append]
  right
  have hjoin : ws ∈ (chunksOf BROADCAST_CHUNK_SIZE conns).flatten := by
    rw [chunksOf_flatten _ (by decide) conns]
    exact hws
  rcases List.mem_flatten.mp hjoin with ⟨c, hc, hwc⟩
  exact ⟨c, hc, List.mem_filter.mpr ⟨hwc, by simp [hfail]⟩⟩

/-- C8 witness: a concrete subscriber whose send fails is gone from the
    registry right after the cycle. -/
theorem C8_broadcast_eviction_witness :
    (3 : Nat) ∉ broadcastStep {3} [3] (fun _ => false) :=
  (C8_broadcast_eviction {3} [3] (fun _ => false)).2.2 3 (by decide) rfl

theorem getStateBytes_cache (s : SysState) (t : Int) :
    ((getStateBytes s t).2.1).cache = some (getStateBytes s t).1 := by
  rcases hc : s.cache with _ | b
  · simp [getStateBytes, hc]
  · by_cases hf : t - s.cacheTime < STATE_CACHE_TTL_MS
    · simp [getStateBytes, hc, hf]
    · simp [getStateBytes, hc, hf]

theorem getStateBytes_hit (s : SysState) (t : Int) (b : FullState)
    (hc : s.cache = some b) (hf : t - s.cacheTime < STATE_CACHE_TTL_MS) :
    getStateBytes s t = (b, s, false) := by
  simp [getStateBytes, hc, hf]

theorem lockFold_no_rebuild (app : AppState) (ts : List Int) (st : LockState)
    (b : FullState) (hc : st.cache = some b)
    (hts : ∀ t ∈ ts, t - st.cacheTime < STATE_CACHE_TTL_MS) :
    (ts.foldl (lockCheckStep app) st).rebuilds = st.rebuilds := by
  induction ts generalizing st with
  | nil => rfl
  | cons t ts ih =>
    rw [List.foldl_cons]
    have hstep : lockCheckStep app st t = st := by
      simp [lockCheckStep, hc, hts t (List.mem_cons_self t ts)]
    rw [hstep]
    exact ih st hc (fun u hu => hts u (List.mem_cons_of_mem t hu))

/-- C5: a second getSnapshotBytes call inside the freshness window of the
    cache value left by the first call, with no intervening invalidate,
    returns the identical bytes and performs no rebuild; and after an
    invalidate, concurrent callers whose entry times lie within one
    freshness window of each other trigger exactly one rebuild regardless of
    their number and of the order in which the lock admits them. -/
theorem C5_cache_coherence (s : SysState) (t1 t2 : Int)
    (hfresh : t2 - ((getStateBytes s t1).2.1).cacheTime < STATE_CACHE_TTL_MS) :
    ((getStateBytes ((getStateBytes s t1).2.1) t2).1 = (getStateBytes s t1).1 ∧
     (getStateBytes ((getStateBytes s t1).2.1) t2).2.2 = false) ∧
    (∀ (app : AppState) (ts : List Int), ts ≠ [] →
      (∀ t ∈ ts, ∀ u ∈ ts, t - u < STATE_CACHE_TTL_MS) →
      concurrentRebuilds app ts = 1) := by
  constructor
  · have hb := getStateBytes_cache s t1
    have h2 := getStateBytes_hit ((getStateBytes s t1).2.1) t2 ((getStateBytes s t1).1)
      hb hfresh
    rw [h2]
    exact ⟨rfl, rfl⟩
  · intro app ts hne hpair
    rcases ts with _ | ⟨t, rest⟩
    · exact absurd rfl hne
    · unfold concurrentRebuilds
      rw [List.foldl_cons]
      have hstep : lockCheckStep app { cache := none, cacheTime := 0, rebuilds := 0 } t
          = { cache := some (build_full_state_bytes app), cacheTime := t,
              rebuilds := 1 } := rfl
      rw [hstep]
      exact lockFold_no_rebuild app rest _ (build_full_state_bytes app) rfl
        (fun u hu => hpair u (List.mem_cons_of_mem t hu) t (List.mem_cons_self t rest))

/-- C5 witness: two concrete calls 10 ms apart on an invalidated cache reuse
    the cached bytes without a rebuild. -/
theorem C5_cache_coherence_witness :
    (getStateBytes ((getStateBytes initSys 0).2.1) 10).1 = (getStateBytes initSys 0).1 ∧
    (getStateBytes ((getStateBytes initSys 0).2.1) 10).2.2 = false :=
  (C5_cache_coherence initSys 0 10 (by decide)).1

theorem notify_fold_inv (us : List (AppState → AppState)) (s : SysState)
    (hp : s.pending = true) (hc : s.cache = none) :
    (us.foldl notifyStep s).pending = true ∧
    (us.foldl notifyStep s).cache = none ∧
    (us.foldl notifyStep s).app = us.foldl (fun a u => u a) s.app ∧
    (us.foldl notifyStep s).broadcasts = s.broadcasts := by
  induction us generalizing s with
  | nil => exact ⟨hp, hc, rfl, rfl⟩
  | cons u us ih =>
    rw [List.foldl_cons, List.foldl_cons]
    have hstep : notifyStep s u = { s with app := u s.app } := by
      simp [notifyStep, hp]
    rw [hstep]
    exact ih { s with app := u s.app } hp hc

theorem windowEnd_rebuild (s : SysState) (now : Int) (hc : s.cache = none) :
    (windowEnd s now).broadcasts = s.broadcasts ++ [build_full_state_bytes s.app] := by
  have h1 : getStateBytes { s with pending := false } now
      = (build_full_state_bytes s.app,
         { s with
           pending := false
           cache := some (build_full_state_bytes s.app)
           cacheTime := now }, true) := by
    simp [getStateBytes, hc]
  simp only [windowEnd, h1]

/-- A concurrent snapshot reader: the /api/state handler (line 851) and the
    websocket accept path (line 863) call state_cache.get_state_bytes while
    a burst is in flight; only the cache fields of the system state are
    affected, and the reader can repopulate the cache mid-burst. -/
def readerStep (s : SysState) (now : Int) : SysState := (getStateBytes s now).2.1

/-- One event interleaved during a debounce window: a notify (a module state
    change followed by the head of schedule_broadcast) or a concurrent
    snapshot reader entering at the given time. -/
inductive BurstEvent where
  | notify (u : AppState → AppState)
  | reader (t : Int)

/-- Effect of one interleaved event on the system state. -/
def burstStep (s : SysState) (e : BurstEvent) : SysState :=
  match e with
  | .notify u => notifyStep s u
  | .reader t => readerStep s t

theorem getStateBytes_broadcasts (s : SysState) (t : Int) :
    ((getStateBytes s t).2.1).broadcasts = s.broadcasts := by
  rcases hc : s.cache with _ | b
  · simp [getStateBytes, hc]
  · by_cases hf : t - s.cacheTime < STATE_CACHE_TTL_MS <;> simp [getStateBytes, hc, hf]

theorem burstStep_broadcasts (s : SysState) (e : BurstEvent) :
    (burstStep s e).broadcasts = s.broadcasts := by
  rcases e with u | t
  · simp only [burstStep, notifyStep]
    split <;> rfl
  · exact getStateBytes_broadcasts s t

theorem foldl_burstStep_broadcasts (es : List BurstEvent) (s : SysState) :
    (es.foldl burstStep s).broadcasts = s.broadcasts := by
  induction es generalizing s with
  | nil => rfl
  | cons e es ih => rw [List.foldl_cons, ih, burstStep_broadcasts]

theorem windowEnd_broadcasts_length (s : SysState) (now : Int) :
    (windowEnd s now).broadcasts.length = s.broadcasts.length + 1 := by
  simp [windowEnd, getStateBytes_broadcasts]

/-- The annotation command setting the treasury text to "A": the /atur
    handler (line 447) is one of the notify call sites. -/
def setInfoA : AppState → AppState := fun a => { a with treasury_info := "A" }

/-- A second annotation command, setting the treasury text to "B". -/
def setInfoB : AppState → AppState := fun a => { a with treasury_info := "B" }

/-- C1 counterexample: two notify calls inside one window with a concurrent
    get_state_bytes reader between them.  Only the first notify invalidates
    the cache; the reader at 2 ms repopulates it with the mid-burst state;
    the window end at 8 ms takes the pre-lock freshness hit (age 6 ms is
    below the 50 ms TTL), so the single broadcast carries the state after
    the first change and not the state as of the end of the window. -/
theorem C1_debounce_counterexample :
    (windowEnd (burstStep (burstStep (burstStep initSys (.notify setInfoA))
        (.reader 2)) (.notify setInfoB)) 8).broadcasts
      = [build_full_state_bytes (setInfoA initSys.app)] ∧
    (windowEnd (burstStep (burstStep (burstStep initSys (.notify setInfoA))
        (.reader 2)) (.notify setInfoB)) 8).broadcasts
      ≠ [build_full_state_bytes (setInfoB (setInfoA initSys.app))] := by
  constructor
  · decide
  · decide

/-- C1 (amended): a burst of notify calls inside one debounce window
    produces exactly one broadcast even when concurrent snapshot readers
    interleave with the changes; and when no reader runs during the window
    the broadcast carries the snapshot built from the state holding all M
    changes, the state as of the end of the window.  A reader inside the
    window can repopulate the cache after the single invalidate of the
    first notify, and because the 50 ms cache TTL exceeds the 8 ms window
    the broadcast then serves that mid-burst snapshot instead. -/
theorem C1_debounce_burst_amended (s0 : SysState) (es : List BurstEvent)
    (us : List (AppState → AppState)) (tEnd : Int)
    (hp : s0.pending = false) (hne : us ≠ []) :
    (windowEnd (es.foldl burstStep s0) tEnd).broadcasts.length
      = s0.broadcasts.length + 1 ∧
    (windowEnd (us.foldl notifyStep s0) tEnd).broadcasts
      = s0.broadcasts ++ [build_full_state_bytes (us.foldl (fun a u => u a) s0.app)] := by
  constructor
  · rw [windowEnd_broadcasts_length, foldl_burstStep_broadcasts]
  · rcases us with _ | ⟨u, rest⟩
    · exact absurd rfl hne
    · rw [List.foldl_cons, List.foldl_cons]
      have hstep : notifyStep s0 u =
          { s0 with
            app := u s0.app
            pending := true
            cache := none
            version := s0.version + 1 } := by
        simp [notifyStep, hp]
      rw [hstep]
      obtain ⟨hP, hC, hA, hB⟩ := notify_fold_inv rest
        { s0 with
          app := u s0.app
          pending := true
          cache := none
          version := s0.version + 1 } rfl rfl
      rw [windowEnd_rebuild _ tEnd hC, hB, hA]

/-- A sample state change used by the burst witness: the annotation handler
    replaces the treasury text. -/
def sampleUpdate : AppState → AppState :=
  fun a => { a with treasury_info := "burst" }

/-- C1 witness: a concrete burst containing a reader yields exactly one
    broadcast, and a concrete reader-free notify yields the broadcast of the
    updated state. -/
theorem C1_debounce_burst_amended_witness :
    (windowEnd (([BurstEvent.reader 1] : List BurstEvent).foldl burstStep initSys)
        0).broadcasts.length = initSys.broadcasts.length + 1 ∧
    (windowEnd (([sampleUpdate] : List (AppState → AppState)).foldl notifyStep initSys)
        0).broadcasts
      = initSys.broadcasts
        ++ [build_full_state_bytes
              (([sampleUpdate] : List (AppState → AppState)).foldl (fun a u => u a)
                initSys.app)] :=
  C1_debounce_burst_amended initSys [BurstEvent.reader 1] [sampleUpdate] 0 rfl
    (List.cons_ne_nil _ _)

end GoldMonitor
